/-
Verification of the cell type detector of `ccsv/detect_type.py`.

The Python module classifies single table-cell strings into semantic types
(empty, url-or-email, number, time, percentage, currency, alphanumeric,
not-a-number, date, date-time) by full-string regular-expression matching,
and aggregates the per-cell results into a type score.

This file gives a shallow embedding:
  * a small regular-expression calculus `RE` with a Brzozowski-derivative
    matcher (`RE.fullmatch`) and a relational semantics (`RE.Matches`),
    proved equivalent, standing in for `regex.fullmatch`;
  * one Lean definition per pattern of the module's `PATTERNS` dictionary
    and per generated date pattern, transcribed from the pattern strings;
  * one Lean definition per predicate of class `TypeDetector`, plus
    `detect_type`, `is_known_type` and `type_score`.

Modelling notes, valid throughout the file:
  * Python's `None` result of `detect_type` (the "unknown" label of the
    specification) is `Option.none`.
  * The Unicode general categories `\p{L}` (letter), `\p{N}` (number) and
    the shorthand `\d` are modelled on their ASCII fragments; the category
    `\p{Sc}` (currency symbol) is transcribed in full.  No theorem below
    depends on non-ASCII letters or digits.
  * Python machine floats are modelled by `ℚ`; `known / total` and the
    comparisons in `max` are exact at every input used below.
-/
import Mathlib

/-- Regular expressions over `Char`, with executable character classes.
`cls p` matches exactly the one-character strings whose character
satisfies `p`. -/
inductive RE where
  | emp : RE
  | eps : RE
  | cls : (Char → Bool) → RE
  | cat : RE → RE → RE
  | alt : RE → RE → RE
  | star : RE → RE

namespace RE

/-- Does the expression accept the empty string? -/
def nullable : RE → Bool
  | .emp => false
  | .eps => true
  | .cls _ => false
  | .cat a b => a.nullable && b.nullable
  | .alt a b => a.nullable || b.nullable
  | .star _ => true

/-- Smart concatenation, used only while taking derivatives. -/
def scat : RE → RE → RE
  | .emp, _ => .emp
  | _, .emp => .emp
  | .eps, b => b
  | a, .eps => a
  | a, b => .cat a b

/-- Smart alternation, used only while taking derivatives. -/
def salt : RE → RE → RE
  | .emp, b => b
  | a, .emp => a
  | a, b => .alt a b

/-- Brzozowski derivative with respect to one character. -/
def deriv : RE → Char → RE
  | .emp, _ => .emp
  | .eps, _ => .emp
  | .cls p, c => if p c then .eps else .emp
  | .cat a b, c =>
      if a.nullable then salt (scat (a.deriv c) b) (b.deriv c)
      else scat (a.deriv c) b
  | .alt a b, c => salt (a.deriv c) (b.deriv c)
  | .star a, c => scat (a.deriv c) (.star a)

/-- Derivative matcher over a list of characters. -/
def matchList : RE → List Char → Bool
  | r, [] => r.nullable
  | r, c :: cs => (r.deriv c).matchList cs

/-- `regex.fullmatch`: does the expression consume the whole string? -/
def fullmatch (r : RE) (s : String) : Bool := r.matchList s.data

/-- Relational semantics: `Matches r l` says the expression `r` accepts
exactly the character list `l`.  The star rule requires a nonempty first
block, which does not change the accepted language. -/
inductive Matches : RE → List Char → Prop where
  | eps : Matches .eps []
  | cls {p : Char → Bool} {c : Char} : p c = true → Matches (.cls p) [c]
  | cat {a b : RE} {l₁ l₂ : List Char} :
      Matches a l₁ → Matches b l₂ → Matches (.cat a b) (l₁ ++ l₂)
  | altL {a b : RE} {l : List Char} : Matches a l → Matches (.alt a b) l
  | altR {a b : RE} {l : List Char} : Matches b l → Matches (.alt a b) l
  | starNil {a : RE} : Matches (.star a) []
  | starCons {a : RE} {l₁ l₂ : List Char} :
      l₁ ≠ [] → Matches a l₁ → Matches (.star a) l₂ →
      Matches (.star a) (l₁ ++ l₂)

theorem not_matches_emp {l : List Char} : ¬ Matches .emp l := by
  intro h; cases h

theorem matches_eps_inv {l : List Char} (h : Matches .eps l) : l = [] := by
  cases h; rfl

theorem matches_cls_inv {p : Char → Bool} {l : List Char}
    (h : Matches (.cls p) l) : ∃ c, l = [c] ∧ p c = true := by
  cases h with
  | cls hp => exact ⟨_, rfl, hp⟩

theorem matches_cat_inv {a b : RE} {l : List Char} (h : Matches (.cat a b) l) :
    ∃ l₁ l₂, l = l₁ ++ l₂ ∧ Matches a l₁ ∧ Matches b l₂ := by
  cases h with
  | cat h1 h2 => exact ⟨_, _, rfl, h1, h2⟩

theorem matches_alt_inv {a b : RE} {l : List Char} (h : Matches (.alt a b) l) :
    Matches a l ∨ Matches b l := by
  cases h with
  | altL h => exact Or.inl h
  | altR h => exact Or.inr h

theorem matches_star_inv {a : RE} {l : List Char} (h : Matches (.star a) l) :
    l = [] ∨ ∃ l₁ l₂, l₁ ≠ [] ∧ l = l₁ ++ l₂ ∧ Matches a l₁ ∧
      Matches (.star a) l₂ := by
  cases h with
  | starNil => exact Or.inl rfl
  | starCons hne h1 h2 => exact Or.inr ⟨_, _, hne, rfl, h1, h2⟩

theorem nullable_iff {r : RE} : r.nullable = true ↔ Matches r [] := by
  induction r with
  | emp => simp [nullable]; exact not_matches_emp
  | eps => simp [nullable]; exact .eps
  | cls p =>
    simp only [nullable, Bool.false_eq_true, false_iff]
    intro h
    obtain ⟨c, hc, -⟩ := matches_cls_inv h
    exact absurd hc.symm (List.cons_ne_nil _ _)
  | cat a b iha ihb =>
    simp only [nullable, Bool.and_eq_true, iha, ihb]
    constructor
    · rintro ⟨ha, hb⟩; exact Matches.cat ha hb
    · intro h
      obtain ⟨l₁, l₂, heq, ha, hb⟩ := matches_cat_inv h
      obtain ⟨h₁, h₂⟩ := List.append_eq_nil.mp heq.symm
      exact ⟨h₁ ▸ ha, h₂ ▸ hb⟩
  | alt a b iha ihb =>
    simp only [nullable, Bool.or_eq_true, iha, ihb]
    constructor
    · rintro (h | h); exacts [.altL h, .altR h]
    · exact matches_alt_inv
  | star a ih => simp [nullable]; exact .starNil

theorem salt_iff {a b : RE} {l : List Char} :
    Matches (salt a b) l ↔ Matches (.alt a b) l := by
  cases a <;> cases b <;> simp only [salt] <;>
    first
    | rfl
    | (constructor
       · intro h; first | exact .altR h | exact .altL h
       · intro h
         rcases matches_alt_inv h with h | h <;>
           first | exact absurd h not_matches_emp | exact h)

theorem matches_cat_eps_left {b : RE} {l : List Char} :
    Matches b l ↔ Matches (.cat .eps b) l := by
  constructor
  · intro h
    have := Matches.cat Matches.eps h
    simpa using this
  · intro h
    obtain ⟨l₁, l₂, heq, ha, hb⟩ := matches_cat_inv h
    rw [matches_eps_inv ha] at heq
    simpa [heq] using hb

theorem matches_cat_eps_right {a : RE} {l : List Char} :
    Matches a l ↔ Matches (.cat a .eps) l := by
  constructor
  · intro h
    have := Matches.cat h Matches.eps
    simpa using this
  · intro h
    obtain ⟨l₁, l₂, heq, ha, hb⟩ := matches_cat_inv h
    rw [matches_eps_inv hb] at heq
    simpa [heq] using ha

theorem matches_cat_emp_left {b : RE} {l : List Char} :
    ¬ Matches (.cat .emp b) l := by
  intro h
  obtain ⟨l₁, l₂, heq, ha, hb⟩ := matches_cat_inv h
  exact not_matches_emp ha

theorem matches_cat_emp_right {a : RE} {l : List Char} :
    ¬ Matches (.cat a .emp) l := by
  intro h
  obtain ⟨l₁, l₂, heq, ha, hb⟩ := matches_cat_inv h
  exact not_matches_emp hb

theorem scat_iff {a b : RE} {l : List Char} :
    Matches (scat a b) l ↔ Matches (.cat a b) l := by
  cases a <;> cases b <;> simp only [scat] <;>
    first
    | rfl
    | (constructor
       · intro h
         first
         | exact absurd h not_matches_emp
         | exact matches_cat_eps_left.mp h
         | exact matches_cat_eps_right.mp h
       · intro h
         first
         | exact absurd h matches_cat_emp_left
         | exact absurd h matches_cat_emp_right
         | exact matches_cat_eps_left.mpr h
         | exact matches_cat_eps_right.mpr h)

theorem deriv_iff {r : RE} {c : Char} {l : List Char} :
    Matches (r.deriv c) l ↔ Matches r (c :: l) := by
  induction r generalizing l with
  | emp =>
    simp only [deriv]
    exact ⟨fun h => absurd h not_matches_emp, fun h => absurd h not_matches_emp⟩
  | eps =>
    simp only [deriv]
    constructor
    · intro h; exact absurd h not_matches_emp
    · intro h
      exact absurd (matches_eps_inv h) (List.cons_ne_nil _ _)
  | cls p =>
    simp only [deriv]
    by_cases hp : p c = true
    · simp only [hp, if_true]
      constructor
      · intro h; rw [matches_eps_inv h]; exact .cls hp
      · intro h
        obtain ⟨c', hc, -⟩ := matches_cls_inv h
        injection hc with h1 h2
        rw [h2]; exact .eps
    · simp only [hp, if_false]
      constructor
      · intro h; exact absurd h not_matches_emp
      · intro h
        obtain ⟨c', hc, hpc⟩ := matches_cls_inv h
        injection hc with h1 h2
        exact absurd (h1 ▸ hpc) hp
  | cat a b iha ihb =>
    simp only [deriv]
    by_cases hn : a.nullable = true
    · rw [if_pos hn]
      rw [salt_iff]
      constructor
      · intro h
        rcases matches_alt_inv h with h | h
        · rw [scat_iff] at h
          obtain ⟨l₁, l₂, heq, h1, h2⟩ := matches_cat_inv h
          rw [iha] at h1
          rw [heq, ← List.cons_append]
          exact Matches.cat h1 h2
        · rw [ihb] at h
          have := Matches.cat (nullable_iff.mp hn) h
          simpa using this
      · intro h
        obtain ⟨l₁, l₂, heq, h1, h2⟩ := matches_cat_inv h
        cases l₁ with
        | nil =>
          apply Matches.altR
          rw [ihb]
          have h3 : l₂ = c :: l := by simpa using heq.symm
          exact h3 ▸ h2
        | cons c' t =>
          rw [List.cons_append] at heq
          injection heq with hc ht
          subst hc
          apply Matches.altL
          rw [scat_iff, ht]
          exact Matches.cat (iha.mpr h1) h2
    · rw [if_neg hn, scat_iff]
      constructor
      · intro h
        obtain ⟨l₁, l₂, heq, h1, h2⟩ := matches_cat_inv h
        rw [iha] at h1
        rw [heq, ← List.cons_append]
        exact Matches.cat h1 h2
      · intro h
        obtain ⟨l₁, l₂, heq, h1, h2⟩ := matches_cat_inv h
        cases l₁ with
        | nil => exact absurd (nullable_iff.mpr h1) hn
        | cons c' t =>
          rw [List.cons_append] at heq
          injection heq with hc ht
          subst hc
          rw [ht]
          exact Matches.cat (iha.mpr h1) h2
  | alt a b iha ihb =>
    simp only [deriv, salt_iff]
    constructor
    · intro h
      rcases matches_alt_inv h with h | h
      · exact .altL (iha.mp h)
      · exact .altR (ihb.mp h)
    · intro h
      rcases matches_alt_inv h with h | h
      · exact .altL (iha.mpr h)
      · exact .altR (ihb.mpr h)
  | star a ih =>
    simp only [deriv, scat_iff]
    constructor
    · intro h
      obtain ⟨l₁, l₂, heq, h1, h2⟩ := matches_cat_inv h
      rw [ih] at h1
      rw [heq, ← List.cons_append]
      exact Matches.starCons (List.cons_ne_nil _ _) h1 h2
    · intro h
      rcases matches_star_inv h with h | ⟨l₁, l₂, hne, heq, h1, h2⟩
      · exact absurd h (List.cons_ne_nil _ _)
      · cases l₁ with
        | nil => exact absurd rfl hne
        | cons c' t =>
          rw [List.cons_append] at heq
          injection heq with hc ht
          subst hc
          rw [ht]
          exact Matches.cat (ih.mpr h1) h2

theorem matchList_iff {l : List Char} {r : RE} :
    r.matchList l = true ↔ Matches r l := by
  induction l generalizing r with
  | nil => simpa [matchList] using nullable_iff
  | cons c cs ih => simpa [matchList] using (ih.trans deriv_iff)

theorem matchList_emp {l : List Char} : matchList .emp l = false := by
  induction l with
  | nil => rfl
  | cons c cs ih => simpa [matchList, deriv] using ih

/-- One-or-more repetition, the `+` operator. -/
def plus (r : RE) : RE := .cat r (.star r)

/-- Zero-or-one repetition, the `?` operator. -/
def opt (r : RE) : RE := .alt .eps r

/-- Exact `n`-fold repetition, the `{n}` operator. -/
def rep (r : RE) : Nat → RE
  | 0 => .eps
  | n + 1 => .cat r (rep r n)

/-- At most `n` repetitions. -/
def upTo (r : RE) : Nat → RE
  | 0 => .eps
  | n + 1 => .alt .eps (.cat r (upTo r n))

/-- Bounded repetition, the `{lo,hi}` operator. -/
def repRange (r : RE) (lo hi : Nat) : RE := .cat (rep r lo) (upTo r (hi - lo))

end RE

/-- The single-character class matching exactly `c` (a literal character). -/
def chOf (c : Char) : RE := .cls (fun x => decide (x.toNat = c.toNat))

/-- A character range, by code point. -/
def rng (lo hi : Char) : RE :=
  .cls (fun x => decide (lo.toNat ≤ x.toNat) && decide (x.toNat ≤ hi.toNat))

/-- The literal string `s` as an expression. -/
def strRE (s : String) : RE := s.data.foldr (fun c r => .cat (chOf c) r) .eps

/-! ## Character classes

The regex-module shorthands used by the patterns.  `\p{L}`, `\p{N}` and
`\d` are modelled on their ASCII fragments (header note); `\p{Sc}` and
`\s` are transcribed in full from the Unicode tables used by the `regex`
module. -/

/-- The shorthand `\d` and the category `\p{N}` (ASCII fragment). -/
def isUniNum (c : Char) : Bool := decide (48 ≤ c.toNat) && decide (c.toNat ≤ 57)

/-- The category `\p{L}` and the class `[A-Za-z]` (ASCII fragment;
for `[A-Za-z]` itself this is exact). -/
def isUniLetter (c : Char) : Bool :=
  (decide (65 ≤ c.toNat) && decide (c.toNat ≤ 90)) ||
  (decide (97 ≤ c.toNat) && decide (c.toNat ≤ 122))

/-- The shorthand `\w`: word characters. -/
def isWordChar (c : Char) : Bool :=
  isUniLetter c || isUniNum c || decide (c.toNat = 95)

/-- The category `\p{Sc}` (currency symbols), transcribed in full. -/
def isCurrencySymbol (c : Char) : Bool :=
  let n := c.toNat
  decide (n = 0x24) || (decide (0xA2 ≤ n) && decide (n ≤ 0xA5)) ||
  decide (n = 0x58F) || decide (n = 0x60B) ||
  decide (n = 0x7FE) || decide (n = 0x7FF) ||
  decide (n = 0x9F2) || decide (n = 0x9F3) || decide (n = 0x9FB) ||
  decide (n = 0xAF1) || decide (n = 0xBF9) || decide (n = 0xE3F) ||
  decide (n = 0x17DB) || (decide (0x20A0 ≤ n) && decide (n ≤ 0x20C0)) ||
  decide (n = 0xA838) || decide (n = 0xFDFC) || decide (n = 0xFE69) ||
  decide (n = 0xFF04) || decide (n = 0xFFE0) || decide (n = 0xFFE1) ||
  decide (n = 0xFFE5) || decide (n = 0xFFE6) ||
  (decide (0x11FDD ≤ n) && decide (n ≤ 0x11FE0)) ||
  decide (n = 0x1E2FF) || decide (n = 0x1ECB0)

/-- The shorthand `\s`: Unicode whitespace. -/
def isSpaceChar (c : Char) : Bool :=
  let n := c.toNat
  (decide (9 ≤ n) && decide (n ≤ 13)) || decide (n = 32) ||
  (decide (0x1C ≤ n) && decide (n ≤ 0x1F)) || decide (n = 0x85) ||
  decide (n = 0xA0) || decide (n = 0x1680) ||
  (decide (0x2000 ≤ n) && decide (n ≤ 0x200A)) || decide (n = 0x2028) ||
  decide (n = 0x2029) || decide (n = 0x202F) || decide (n = 0x205F) ||
  decide (n = 0x3000)

/-! ## Python string helpers

The string operations the module applies outside of the regexes, with
Python semantics. -/

/-- `str.strip(" ")` on a character list: remove leading and trailing
ASCII spaces (only U+0020, exactly as `strip(" ")` does). -/
def stripList (l : List Char) : List Char :=
  ((l.dropWhile (fun c => c == ' ')).reverse.dropWhile (fun c => c == ' ')).reverse

/-- `cell.strip(" ")`. -/
def stripSpaces (s : String) : String := ⟨stripList s.data⟩

/-- `str.split(sep)` for a one-character separator, Python semantics:
`"".split(sep) = [""]`, the separator is not kept, empty pieces are kept. -/
def splitCharList (sep : Char) : List Char → List (List Char)
  | [] => [[]]
  | c :: rest =>
    let r := splitCharList sep rest
    if c == sep then [] :: r
    else
      match r with
      | [] => [[c]]
      | h :: t => (c :: h) :: t

/-- `cell.split(sep)` for a one-character separator. -/
def pySplit (sep : Char) (s : String) : List String :=
  (splitCharList sep s.data).map (fun l => ⟨l⟩)

/-- Python's `c in cell` membership test for a single character. -/
def pyContains (s : String) (c : Char) : Bool := s.data.any (fun x => x == c)

/-- `cell.endswith("%")`. -/
def pyEndsWithPercent (s : String) : Bool :=
  match s.data.getLast? with
  | none => false
  | some c => c == '%'

/-- `cell.rstrip("%")`: remove every trailing `%`. -/
def pyRstripPercent (s : String) : String :=
  ⟨(s.data.reverse.dropWhile (fun c => c == '%')).reverse⟩

/-- `cell.lower()` (ASCII fragment of Python's Unicode lowercasing; the
only use is the comparison against "n/a"). -/
def pyLower (s : String) : String := ⟨s.data.map Char.toLower⟩

/-! ## The `PATTERNS` dictionary

One Lean definition per pattern string, transcribed syntactically.
Python's conditional groups `(?P<g>x)?(?(g)a|b)` are rendered as the
equivalent alternation `(xa|b)`, and the leading lookahead of `number_1`
is rendered as a separate first-character test (both rewrites preserve
the full-match language). -/

/-- The class `[+-]` (an explicit sign). -/
def signCls : RE := .cls (fun c => decide (c.toNat = '+'.toNat) || decide (c.toNat = '-'.toNat))

/-- The class `\d` as an expression. -/
def digitRE : RE := .cls isUniNum

/-- The exponent suffix `[eE][+-]?\d+`. -/
def expTail : RE :=
  .cat (.cls (fun c => decide (c.toNat = 'e'.toNat) || decide (c.toNat = 'E'.toNat)))
    (.cat (RE.opt signCls) (RE.plus digitRE))

/-- The lookahead `(?=[+-\.\d])` of `number_1`: the next character lies in
the character range `+`..`.` (code points 43-46, so also `,` and `-`) or is
a digit.  Under `fullmatch` this constrains the first character of the
whole cell. -/
def numberOneLookahead (s : String) : Bool :=
  match s.data with
  | [] => false
  | c :: _ => (decide (43 ≤ c.toNat) && decide (c.toNat ≤ 46)) || isUniNum c

/-- `(?:0|[1-9]\d*)?`: the optional integer part of `number_1`. -/
def numberOneIntpart : RE :=
  RE.opt (.alt (chOf '0') (.cat (rng '1' '9') (.star digitRE)))

/-- `(?P<yes_dot>\d*(\d+[eE][+-]?\d+)?)`. -/
def numberOneYesDot : RE :=
  .cat (.star digitRE) (RE.opt (.cat (RE.plus digitRE) expTail))

/-- `(?P<no_dot>([eE][+-]?\d+)?)`. -/
def numberOneNoDot : RE := RE.opt expTail

/-- `(?P<yes_comma>\d+(\d+[eE][+-]?\d+)?)`. -/
def numberOneYesComma : RE :=
  .cat (RE.plus digitRE) (RE.opt (.cat (RE.plus digitRE) expTail))

/-- `(?P<no_comma>([eE][+-]?\d+)?)`. -/
def numberOneNoComma : RE := RE.opt expTail

/-- `(((?P<dot>\.)?(?(dot)yes_dot|no_dot))|((?P<comma>,)?(?(comma)yes_comma|no_comma)))`
with the conditional groups resolved into alternations. -/
def numberOneGroup : RE :=
  .alt (.alt (.cat (chOf '.') numberOneYesDot) numberOneNoDot)
    (.alt (.cat (chOf ',') numberOneYesComma) numberOneNoComma)

/-- The body of `number_1` after the lookahead:
`[+-]?(?:0|[1-9]\d*)?(...)`. -/
def numberOneBody : RE :=
  .cat (RE.opt signCls) (.cat numberOneIntpart numberOneGroup)

/-- `number_2`: `[+-]?(?:[1-9]|[1-9]\d{0,2})(?:\,\d{3})+\.\d*`. -/
def number_2 : RE :=
  .cat (RE.opt signCls)
    (.cat (.alt (rng '1' '9') (.cat (rng '1' '9') (RE.repRange digitRE 0 2)))
      (.cat (RE.plus (.cat (chOf ',') (RE.rep digitRE 3)))
        (.cat (chOf '.') (.star digitRE))))

/-- `number_3`: `[+-]?(?:[1-9]|[1-9]\d{0,2})(?:\.\d{3})+\,\d*`. -/
def number_3 : RE :=
  .cat (RE.opt signCls)
    (.cat (.alt (rng '1' '9') (.cat (rng '1' '9') (RE.repRange digitRE 0 2)))
      (.cat (RE.plus (.cat (chOf '.') (RE.rep digitRE 3)))
        (.cat (chOf ',') (.star digitRE))))

/-- The class `[-;:&=\+\$,\w]` (user-info characters of `url`). -/
def urlUserCls : RE :=
  .cls (fun c =>
    decide (c.toNat = '-'.toNat) || decide (c.toNat = ';'.toNat) ||
    decide (c.toNat = ':'.toNat) || decide (c.toNat = '&'.toNat) ||
    decide (c.toNat = '='.toNat) || decide (c.toNat = '+'.toNat) ||
    decide (c.toNat = '$'.toNat) || decide (c.toNat = ','.toNat) ||
    isWordChar c)

/-- The class `[A-Za-z0-9.-]` (host characters of `url`). -/
def urlHostCls : RE :=
  .cls (fun c =>
    isUniLetter c || isUniNum c ||
    decide (c.toNat = '.'.toNat) || decide (c.toNat = '-'.toNat))

/-- `(?:[A-Za-z]{3,9}:(?:\/\/)?)`: the scheme part of `url`. -/
def urlScheme : RE :=
  .cat (RE.repRange (.cls isUniLetter) 3 9)
    (.cat (chOf ':') (RE.opt (strRE "//")))

/-- `(?:[-;:&=\+\$,\w]+@)`: the user-info part of `url`. -/
def urlUserinfo : RE := .cat (RE.plus urlUserCls) (chOf '@')

/-- `www.` — note the unescaped `.`, which matches any character except a
newline. -/
def urlWwwDot : RE := .cat (strRE "www") (.cls (fun c => !decide (c.toNat = 10)))

/-- The class `[\+~%\/.\w\-_]` (path characters of `url`). -/
def urlPathCls : RE :=
  .cls (fun c =>
    decide (c.toNat = '+'.toNat) || decide (c.toNat = '~'.toNat) ||
    decide (c.toNat = '%'.toNat) || decide (c.toNat = '/'.toNat) ||
    decide (c.toNat = '.'.toNat) || isWordChar c ||
    decide (c.toNat = '-'.toNat) || decide (c.toNat = '_'.toNat))

/-- The class `[-\+=&;%@.\w_]` (query characters of `url`). -/
def urlQueryCls : RE :=
  .cls (fun c =>
    decide (c.toNat = '-'.toNat) || decide (c.toNat = '+'.toNat) ||
    decide (c.toNat = '='.toNat) || decide (c.toNat = '&'.toNat) ||
    decide (c.toNat = ';'.toNat) || decide (c.toNat = '%'.toNat) ||
    decide (c.toNat = '@'.toNat) || decide (c.toNat = '.'.toNat) ||
    isWordChar c || decide (c.toNat = '_'.toNat))

/-- `(?:(?:\/[\+~%\/.\w\-_]*)?\??(?:[-\+=&;%@.\w_]*)#?(?:[\w]*))?`:
the optional path/query/fragment tail of `url`. -/
def urlTail : RE :=
  RE.opt (.cat (RE.opt (.cat (chOf '/') (.star urlPathCls)))
    (.cat (RE.opt (chOf '?'))
      (.cat (.star urlQueryCls)
        (.cat (RE.opt (chOf '#')) (.star (.cls isWordChar))))))

/-- The `url` pattern. -/
def urlRE : RE :=
  .cat (.alt (.cat urlScheme (.cat (RE.opt urlUserinfo) (RE.plus urlHostCls)))
      (.cat (.alt urlWwwDot urlUserinfo) (RE.plus urlHostCls)))
    urlTail

/-- The class `[a-zA-Z0-9_.+-]` (local part of `email`). -/
def emailLocalCls : RE :=
  .cls (fun c =>
    isUniLetter c || isUniNum c || decide (c.toNat = '_'.toNat) ||
    decide (c.toNat = '.'.toNat) || decide (c.toNat = '+'.toNat) ||
    decide (c.toNat = '-'.toNat))

/-- The class `[a-zA-Z0-9-]` (domain label of `email`). -/
def emailDomainCls : RE :=
  .cls (fun c => isUniLetter c || isUniNum c || decide (c.toNat = '-'.toNat))

/-- The class `[a-zA-Z0-9-.]` (domain tail of `email`). -/
def emailTailCls : RE :=
  .cls (fun c =>
    isUniLetter c || isUniNum c || decide (c.toNat = '-'.toNat) ||
    decide (c.toNat = '.'.toNat))

/-- The `email` pattern `^[a-zA-Z0-9_.+-]+@[a-zA-Z0-9-]+\.[a-zA-Z0-9-.]+$`
(the anchors are no-ops under `fullmatch`). -/
def emailRE : RE :=
  .cat (RE.plus emailLocalCls)
    (.cat (chOf '@')
      (.cat (RE.plus emailDomainCls)
        (.cat (chOf '.') (RE.plus emailTailCls))))

/-- `SPECIALS_ALLOWED`: the code points admitted inside alphanumeric
tokens, in source order (the duplicated U+2048/U+2049 included). -/
def specialsAllowed : List Char :=
  [Char.ofNat 0x002E, Char.ofNat 0x06D4, Char.ofNat 0x3002,
   Char.ofNat 0xFE52, Char.ofNat 0xFF0E, Char.ofNat 0xFF61,
   Char.ofNat 0x0028, Char.ofNat 0x0029, Char.ofNat 0x27EE,
   Char.ofNat 0x27EF, Char.ofNat 0xFF08, Char.ofNat 0xFF09,
   Char.ofNat 0x003F, Char.ofNat 0x00BF, Char.ofNat 0x037E,
   Char.ofNat 0x055E, Char.ofNat 0x061F, Char.ofNat 0x1367,
   Char.ofNat 0x1945, Char.ofNat 0x2047, Char.ofNat 0x2048,
   Char.ofNat 0x2049, Char.ofNat 0x2CFA, Char.ofNat 0x2CFB,
   Char.ofNat 0x2E2E, Char.ofNat 0xA60F, Char.ofNat 0xA6F7,
   Char.ofNat 0xFE16, Char.ofNat 0xFE56, Char.ofNat 0xFF1F,
   Char.ofNat 69955, Char.ofNat 125279,
   Char.ofNat 0x0021, Char.ofNat 0x00A1, Char.ofNat 0x01C3,
   Char.ofNat 0x055C, Char.ofNat 0x07F9, Char.ofNat 0x109F,
   Char.ofNat 0x1944, Char.ofNat 0x203C, Char.ofNat 0x2048,
   Char.ofNat 0x2049, Char.ofNat 0xAA77, Char.ofNat 0xFE15,
   Char.ofNat 0xFE57, Char.ofNat 0xFF01, Char.ofNat 125278]

/-- The class `[\p{N}\p{L}\ <specials>]` of `unicode_alphanum`. -/
def alphanumTailCls : RE :=
  .cls (fun c =>
    isUniNum c || isUniLetter c || decide (c.toNat = 32) ||
    specialsAllowed.contains c)

/-- The `unicode_alphanum` pattern
`(\p{N}+\p{L}+[...]*|\p{L}+[...]+)`. -/
def unicodeAlphanumRE : RE :=
  .alt (.cat (RE.plus (.cls isUniNum))
      (.cat (RE.plus (.cls isUniLetter)) (.star alphanumTailCls)))
    (.cat (RE.plus (.cls isUniLetter)) (RE.plus alphanumTailCls))

/-- `(0[0-9]|1[0-9]|2[0-3])`: a zero-padded hour. -/
def hourTwoDigit : RE :=
  .alt (.alt (.cat (chOf '0') (rng '0' '9')) (.cat (chOf '1') (rng '0' '9')))
    (.cat (chOf '2') (rng '0' '3'))

/-- `([0-5][0-9])`: a minute or second. -/
def minutePair : RE := .cat (rng '0' '5') (rng '0' '9')

/-- `time_hhmmss`: `(0[0-9]|1[0-9]|2[0-3]):([0-5][0-9]):([0-5][0-9])`. -/
def time_hhmmss : RE :=
  .cat hourTwoDigit (.cat (chOf ':') (.cat minutePair (.cat (chOf ':') minutePair)))

/-- `time_hhmm`: `(0[0-9]|1[0-9]|2[0-3]):([0-5][0-9])`. -/
def time_hhmm : RE := .cat hourTwoDigit (.cat (chOf ':') minutePair)

/-- `time_HHMM`: `(0[0-9]|1[0-9]|2[0-3])([0-5][0-9])`. -/
def time_HHMM : RE := .cat hourTwoDigit minutePair

/-- `time_HH`: `(0[0-9]|1[0-9]|2[0-3])([0-5][0-9])` — the source string is
character-for-character identical to the one of `time_HHMM`. -/
def time_HH : RE := .cat hourTwoDigit minutePair

/-- `time_hmm`: `([0-9]|1[0-9]|2[0-3]):([0-5][0-9])`. -/
def time_hmm : RE :=
  .cat (.alt (.alt (rng '0' '9') (.cat (chOf '1') (rng '0' '9')))
      (.cat (chOf '2') (rng '0' '3')))
    (.cat (chOf ':') minutePair)

/-- The class `[\/~]` of `unix_path`. -/
def unixRootCls : RE :=
  .cls (fun c => decide (c.toNat = '/'.toNat) || decide (c.toNat = '~'.toNat))

/-- The class `[a-zA-Z0-9\.]` of `unix_path`. -/
def unixNameCls : RE :=
  .cls (fun c => isUniLetter c || isUniNum c || decide (c.toNat = '.'.toNat))

/-- `unix_path`: `[\/~]{1,2}(?:[a-zA-Z0-9\.]+(?:[\/]{1,2}))+(?:[a-zA-Z0-9\.]+)`
(present in `PATTERNS` but referenced by no predicate). -/
def unix_path : RE :=
  .cat (RE.repRange unixRootCls 1 2)
    (.cat (RE.plus (.cat (RE.plus unixNameCls) (RE.repRange (chOf '/') 1 2)))
      (RE.plus unixNameCls))

/-! ## The generated date patterns (`_init_date_patterns`) -/

/-- `year2`: `(?:\d{2})`. -/
def year2 : RE := RE.rep digitRE 2

/-- `year4`: `(?:[12]\d{3})`. -/
def year4 : RE :=
  .cat (.cls (fun c => decide (c.toNat = '1'.toNat) || decide (c.toNat = '2'.toNat)))
    (RE.rep digitRE 3)

/-- `month_leading`: `(?:0[1-9]|1[0-2])`. -/
def month_leading : RE :=
  .alt (.cat (chOf '0') (rng '1' '9')) (.cat (chOf '1') (rng '0' '2'))

/-- `month_sparse`: `(?:[1-9]|1[0-2])`. -/
def month_sparse : RE :=
  .alt (rng '1' '9') (.cat (chOf '1') (rng '0' '2'))

/-- `day_leading`: `(?:0[1-9]|[12]\d|3[01])`. -/
def day_leading : RE :=
  .alt (.alt (.cat (chOf '0') (rng '1' '9'))
      (.cat (.cls (fun c => decide (c.toNat = '1'.toNat) || decide (c.toNat = '2'.toNat))) digitRE))
    (.cat (chOf '3') (rng '0' '1'))

/-- `day_sparse`: `(?:[1-9]|[12]\d|3[01])`. -/
def day_sparse : RE :=
  .alt (.alt (rng '1' '9')
      (.cat (.cls (fun c => decide (c.toNat = '1'.toNat) || decide (c.toNat = '2'.toNat))) digitRE))
    (.cat (chOf '3') (rng '0' '1'))

/-- The separator class: dash, slash, dot or space (`sep` in the
source). -/
def dateSepCls : RE :=
  .cls (fun c =>
    decide (c.toNat = '-'.toNat) || decide (c.toNat = '/'.toNat) ||
    decide (c.toNat = '.'.toNat) || decide (c.toNat = ' '.toNat))

/-- `{a}{sep}{b}{sep}{c}` with the separator class between the fields. -/
def dateSep3 (a b c : RE) : RE :=
  .cat a (.cat dateSepCls (.cat b (.cat dateSepCls c)))

/-- `{year}年{month}月{day}日` (the Chinese joiner format). -/
def dateCN (y m d : RE) : RE :=
  .cat y (.cat (chOf '年') (.cat m (.cat (chOf '月') (.cat d (chOf '日')))))

/-- `{year}년{month}월{day}일` (the Korean joiner format). -/
def dateKO (y m d : RE) : RE :=
  .cat y (.cat (chOf '년') (.cat m (.cat (chOf '월') (.cat d (chOf '일')))))

/-- `{a}{b}{c}` with the empty separator (the compact formats). -/
def dateCompact (a b c : RE) : RE := .cat a (.cat b c)

/-- The Date Format Space, generated exactly as `_init_date_patterns` does:
the separator cross product (year × month × day, five orderings/scripts
each), then the compact block.  In the Python source the compact block
appends `pat_cn` without recomputing it, so the stale value from the last
iteration of the first loop (`year4`/`month_sparse`/`day_sparse`) is
appended once per year width; it is transcribed as such. -/
def datePats : List RE :=
  (([year2, year4].map (fun y =>
    ([month_leading, month_sparse].map (fun m =>
      ([day_leading, day_sparse].map (fun d =>
        [dateSep3 y m d, dateSep3 d m y, dateSep3 m d y,
         dateCN y m d, dateKO y m d])).flatten)).flatten)).flatten)
  ++ (([year2, year4].map (fun y =>
        [dateCompact y month_leading day_leading,
         dateCompact day_leading month_leading y,
         dateCompact month_leading day_leading y,
         dateCN year4 month_sparse day_sparse])).flatten)

/-! ## The `TypeDetector` predicates

Each Python method becomes a function taking the detector's
`strip_whitespace` flag as its first argument. -/

/-- `_run_regex`: strip the cell if configured, then `fullmatch`. -/
def run_regex (strip : Bool) (cell : String) (pat : RE) : Bool :=
  pat.fullmatch (if strip then stripSpaces cell else cell)

/-- The `number_1` test: `_run_regex(cell, "number_1")`, with the
lookahead applied to the same stripped cell. -/
def run_number_1 (strip : Bool) (cell : String) : Bool :=
  let c := if strip then stripSpaces cell else cell
  numberOneLookahead c && numberOneBody.fullmatch c

/-- `is_number`: empty cells are rejected before any stripping; otherwise
the three numeric patterns are tried in order. -/
def is_number (strip : Bool) (cell : String) : Bool :=
  if cell = "" then false
  else
    run_number_1 strip cell ||
    run_regex strip cell number_2 ||
    run_regex strip cell number_3

/-- `is_url_or_email`. -/
def is_url_or_email (strip : Bool) (cell : String) : Bool :=
  run_regex strip cell urlRE || run_regex strip cell emailRE

/-- `is_unicode_alphanum`. -/
def is_unicode_alphanum (strip : Bool) (cell : String) : Bool :=
  run_regex strip cell unicodeAlphanumRE

/-- `is_date`: numeric cells are never dates; otherwise some generated
date pattern must fully match. -/
def is_date (strip : Bool) (cell : String) : Bool :=
  if is_number strip cell then false
  else datePats.any (fun p => run_regex strip cell p)

/-- `is_time`: the three time patterns, in source order. -/
def is_time (strip : Bool) (cell : String) : Bool :=
  run_regex strip cell time_hmm ||
  run_regex strip cell time_hhmm ||
  run_regex strip cell time_hhmmss

/-- `is_empty`: the (stripped) cell is the empty string. -/
def is_empty (strip : Bool) (cell : String) : Bool :=
  (if strip then stripSpaces cell else cell) == ""

/-- `is_percentage`: the stripped cell ends with `%` and becomes a number
once every trailing `%` is removed. -/
def is_percentage (strip : Bool) (cell : String) : Bool :=
  let c := if strip then stripSpaces cell else cell
  pyEndsWithPercent c && is_number strip (pyRstripPercent c)

/-- `fullmatch` of the `currency` pattern `\p{Sc}\s?(.*)`, returning the
text of group 1 when the pattern matches: one currency-symbol character,
then greedily at most one whitespace character, then any characters other
than newline (`.` does not match a newline).  `none` models a failed
match. -/
def currencyGroup (s : String) : Option String :=
  match s.data with
  | [] => none
  | c :: rest =>
    if isCurrencySymbol c then
      match rest with
      | [] => some ""
      | d :: rest2 =>
        if isSpaceChar d then
          if rest2.all (fun x => !decide (x.toNat = 10)) then some ⟨rest2⟩ else none
        else
          if rest.all (fun x => !decide (x.toNat = 10)) then some ⟨rest⟩ else none
    else none

/-- `is_currency`: the currency pattern must match and its captured
remainder must be a number. -/
def is_currency (strip : Bool) (cell : String) : Bool :=
  let c := if strip then stripSpaces cell else cell
  match currencyGroup c with
  | none => false
  | some grp => is_number strip grp

/-- `is_nan`: the lowercased stripped cell equals `n/a`. -/
def is_nan (strip : Bool) (cell : String) : Bool :=
  let c := if strip then stripSpaces cell else cell
  pyLower c == "n/a"

/-- `is_datetime`, translated clause by clause; list indexing is
`List.getD`, justified against the fallible version `is_datetimeE`
below. -/
def is_datetime (strip : Bool) (cell : String) : Bool :=
  if pyContains cell ' ' then
    let parts := pySplit ' ' cell
    if parts.length > 2 then false
    else is_date strip (parts.getD 0 "") && is_time strip (parts.getD 1 "")
  else if pyContains cell 'T' then
    let parts := pySplit 'T' cell
    if parts.length > 2 then false
    else if !is_date strip (parts.getD 0 "") then false
    else if is_time strip (parts.getD 1 "") then true
    else if pyContains (parts.getD 1 "") '+' then
      let sub := pySplit '+' (parts.getD 1 "")
      if !is_time strip (sub.getD 0 "") then false
      else if is_time strip (sub.getD 1 "") then true
      else if run_regex strip (sub.getD 1 "") time_HHMM then true
      else if run_regex strip (sub.getD 1 "") time_HH then true
      else false
    else if pyContains (parts.getD 1 "") '-' then
      let sub := pySplit '-' (parts.getD 1 "")
      if !is_time strip (sub.getD 0 "") then false
      else if is_time strip (sub.getD 1 "") then true
      else if run_regex strip (sub.getD 1 "") time_HHMM then true
      else if run_regex strip (sub.getD 1 "") time_HH then true
      else false
    else false
  else false

/-- `is_datetime` with Python's partial list indexing made explicit:
`parts[i]` is `List.getElem?`, and a `none` result models an
`IndexError`.  The safety theorem below shows the `none` case never
arises. -/
def is_datetimeE (strip : Bool) (cell : String) : Option Bool :=
  if pyContains cell ' ' then
    let parts := pySplit ' ' cell
    if parts.length > 2 then some false
    else do
      let p0 ← parts[0]?
      let p1 ← parts[1]?
      some (is_date strip p0 && is_time strip p1)
  else if pyContains cell 'T' then
    let parts := pySplit 'T' cell
    if parts.length > 2 then some false
    else do
      let p0 ← parts[0]?
      let p1 ← parts[1]?
      if !is_date strip p0 then some false
      else if is_time strip p1 then some true
      else if pyContains p1 '+' then do
        let sub := pySplit '+' p1
        let s0 ← sub[0]?
        let s1 ← sub[1]?
        if !is_time strip s0 then some false
        else if is_time strip s1 then some true
        else if run_regex strip s1 time_HHMM then some true
        else if run_regex strip s1 time_HH then some true
        else some false
      else if pyContains p1 '-' then do
        let sub := pySplit '-' p1
        let s0 ← sub[0]?
        let s1 ← sub[1]?
        if !is_time strip s0 then some false
        else if is_time strip s1 then some true
        else if run_regex strip s1 time_HHMM then some true
        else if run_regex strip s1 time_HH then some true
        else some false
      else some false
  else some false

/-! ## Ordered dispatch and scorer -/

/-- The ordered `type_tests` list of `detect_type`, with the source's
labels. -/
def type_tests (strip : Bool) : List (String × (String → Bool)) :=
  [("empty", is_empty strip),
   ("url_or_email", is_url_or_email strip),
   ("number", is_number strip),
   ("time", is_time strip),
   ("percentage", is_percentage strip),
   ("currency", is_currency strip),
   ("unicode_alphanum", is_unicode_alphanum strip),
   ("nan", is_nan strip),
   ("date", is_date strip),
   ("datetime", is_datetime strip)]

/-- The loop of `detect_type`: return the first label whose test accepts
the cell. -/
def firstMatch : List (String × (String → Bool)) → String → Option String
  | [], _ => none
  | (name, f) :: rest, c => if f c then some name else firstMatch rest c

/-- `detect_type`; `none` is Python's `None`, the spec's "unknown". -/
def detect_type (strip : Bool) (cell : String) : Option String :=
  firstMatch (type_tests strip) cell

/-- `is_known_type`: `not detect_type(cell) is None`. -/
def is_known_type (strip : Bool) (cell : String) : Bool :=
  (detect_type strip cell).isSome

/-- The predicate belonging to each label of `type_tests` (used to state
that a returned label's own predicate holds). -/
def labelPred : String → Bool → String → Bool
  | "empty", strip, c => is_empty strip c
  | "url_or_email", strip, c => is_url_or_email strip c
  | "number", strip, c => is_number strip c
  | "time", strip, c => is_time strip c
  | "percentage", strip, c => is_percentage strip c
  | "currency", strip, c => is_currency strip c
  | "unicode_alphanum", strip, c => is_unicode_alphanum strip c
  | "nan", strip, c => is_nan strip c
  | "date", strip, c => is_date strip c
  | "datetime", strip, c => is_datetime strip c
  | _, _, _ => false

/-- The `type_tests` list with the one fallible test (`is_datetimeE`)
kept fallible. -/
def type_testsE (strip : Bool) : List (String × (String → Option Bool)) :=
  [("empty", fun c => some (is_empty strip c)),
   ("url_or_email", fun c => some (is_url_or_email strip c)),
   ("number", fun c => some (is_number strip c)),
   ("time", fun c => some (is_time strip c)),
   ("percentage", fun c => some (is_percentage strip c)),
   ("currency", fun c => some (is_currency strip c)),
   ("unicode_alphanum", fun c => some (is_unicode_alphanum strip c)),
   ("nan", fun c => some (is_nan strip c)),
   ("date", fun c => some (is_date strip c)),
   ("datetime", is_datetimeE strip)]

/-- The loop of `detect_type` over fallible tests: an inner `none`
(a raised `IndexError`) aborts the whole dispatch with `none`. -/
def firstMatchE : List (String × (String → Option Bool)) → String →
    Option (Option String)
  | [], _ => some none
  | (name, f) :: rest, c =>
    match f c with
    | none => none
    | some true => some (some name)
    | some false => firstMatchE rest c

/-- `detect_type` with the possibility of an `IndexError` made explicit. -/
def detect_typeE (strip : Bool) (cell : String) : Option (Option String) :=
  firstMatchE (type_testsE strip) cell

/-- `gen_known_type`: one `is_known_type` result per cell, in order,
for a default detector (`strip_whitespace=True`). -/
def gen_known_type (cells : List String) : List Bool :=
  cells.map (fun cell => is_known_type true cell)

/-- `type_score`.  The external parser `parse_data` is not part of this
module (only `detect_type.py` is in the repository slice), so the scorer
is stated over its output: `rows`, the list of rows of cell strings the
parser yields for `data` and `dialect`.  The two counters mirror the
Python loop; the detector is a default one (`strip_whitespace=True`).
Python floats are modelled by `ℚ` (header note). -/
def type_score (rows : List (List String)) (eps : ℚ) : ℚ :=
  let counts : Nat × Nat :=
    rows.foldl (fun acc row =>
      row.foldl (fun acc2 cell =>
        (acc2.1 + 1, acc2.2 + (if is_known_type true cell then 1 else 0)))
        acc)
      (0, 0)
  if counts.1 = 0 then eps
  else max eps ((counts.2 : ℚ) / (counts.1 : ℚ))

/-- `DEFAULT_EPS_TYPE = 1e-10`. -/
def DEFAULT_EPS_TYPE : ℚ := 1 / 10000000000

/-! ## Stripping lemmas

`str.strip(" ")` is idempotent; consequently every predicate that strips
before matching is invariant under pre-stripping its argument. -/

theorem head_dropWhile_false (p : Char → Bool) (l : List Char) {c : Char}
    {cs : List Char} (h : l.dropWhile p = c :: cs) : p c = false := by
  induction l with
  | nil => simp [List.dropWhile] at h
  | cons a t ih =>
    rw [List.dropWhile_cons] at h
    by_cases hp : p a = true
    · rw [if_pos hp] at h; exact ih h
    · rw [if_neg hp] at h
      injection h with h1 h2
      subst h1
      simpa using hp

theorem dropWhile_eq_self_of (p : Char → Bool) (l : List Char)
    (h : ∀ c cs, l = c :: cs → p c = false) : l.dropWhile p = l := by
  cases l with
  | nil => rfl
  | cons a t =>
    rw [List.dropWhile_cons, if_neg (by simp [h a t rfl])]

theorem dropWhile_idem (p : Char → Bool) (l : List Char) :
    (l.dropWhile p).dropWhile p = l.dropWhile p := by
  apply dropWhile_eq_self_of
  intro c cs h
  exact head_dropWhile_false p l h

theorem dropWhile_suffix_exists (p : Char → Bool) (l : List Char) :
    ∃ t, t ++ l.dropWhile p = l := by
  induction l with
  | nil => exact ⟨[], rfl⟩
  | cons a t ih =>
    rw [List.dropWhile_cons]
    by_cases hp : p a = true
    · rw [if_pos hp]
      obtain ⟨u, hu⟩ := ih
      exact ⟨a :: u, by simp [hu]⟩
    · rw [if_neg hp]
      exact ⟨[], rfl⟩

theorem stripList_idem (l : List Char) :
    stripList (stripList l) = stripList l := by
  unfold stripList
  have hBA : ∃ t,
      ((l.dropWhile (fun c => c == ' ')).reverse.dropWhile
        (fun c => c == ' ')).reverse ++ t = l.dropWhile (fun c => c == ' ') := by
    obtain ⟨t, ht⟩ :=
      dropWhile_suffix_exists (fun c => c == ' ')
        (l.dropWhile (fun c => c == ' ')).reverse
    refine ⟨t.reverse, ?_⟩
    have := congrArg List.reverse ht
    simpa using this
  have h1 : (((l.dropWhile (fun c => c == ' ')).reverse.dropWhile
      (fun c => c == ' ')).reverse).dropWhile (fun c => c == ' ') =
      ((l.dropWhile (fun c => c == ' ')).reverse.dropWhile
        (fun c => c == ' ')).reverse := by
    apply dropWhile_eq_self_of
    intro c cs hc
    obtain ⟨t, ht⟩ := hBA
    have hA : l.dropWhile (fun c => c == ' ') = c :: (cs ++ t) := by
      rw [← ht, hc]; simp
    exact head_dropWhile_false (fun c => c == ' ') l hA
  rw [h1]
  have h2 : (((l.dropWhile (fun c => c == ' ')).reverse.dropWhile
      (fun c => c == ' ')).reverse).reverse =
      (l.dropWhile (fun c => c == ' ')).reverse.dropWhile (fun c => c == ' ') := by
    simp
  rw [h2, dropWhile_idem]

theorem stripSpaces_idem (s : String) :
    stripSpaces (stripSpaces s) = stripSpaces s := by
  show (⟨stripList (stripList s.data)⟩ : String) = ⟨stripList s.data⟩
  rw [stripList_idem]

theorem run_regex_strip (cell : String) (pat : RE) :
    run_regex true (stripSpaces cell) pat = run_regex true cell pat := by
  simp [run_regex, stripSpaces_idem]

theorem run_number_1_strip (cell : String) :
    run_number_1 true (stripSpaces cell) = run_number_1 true cell := by
  simp [run_number_1, stripSpaces_idem]

theorem stripSpaces_empty : stripSpaces "" = "" := rfl

theorem is_number_strip (cell : String) :
    is_number true (stripSpaces cell) = is_number true cell := by
  by_cases hc : cell = ""
  · subst hc; rw [stripSpaces_empty]
  · by_cases hsc : stripSpaces cell = ""
    · rw [hsc]
      simp only [is_number, if_pos rfl, if_neg hc]
      have h1 : run_number_1 true cell = false := by
        simp [run_number_1, hsc, numberOneLookahead]
      have h2 : run_regex true cell number_2 = false := by
        have he : run_regex true cell number_2 =
            number_2.fullmatch (stripSpaces cell) := rfl
        rw [he, hsc]; decide
      have h3 : run_regex true cell number_3 = false := by
        have he : run_regex true cell number_3 =
            number_3.fullmatch (stripSpaces cell) := rfl
        rw [he, hsc]; decide
      rw [h1, h2, h3]
      rfl
    · simp only [is_number, if_neg hc, if_neg hsc]
      rw [run_number_1_strip, run_regex_strip, run_regex_strip]

theorem is_empty_strip (cell : String) :
    is_empty true (stripSpaces cell) = is_empty true cell := by
  simp [is_empty, stripSpaces_idem]

theorem is_url_or_email_strip (cell : String) :
    is_url_or_email true (stripSpaces cell) = is_url_or_email true cell := by
  simp [is_url_or_email, run_regex_strip]

theorem is_unicode_alphanum_strip (cell : String) :
    is_unicode_alphanum true (stripSpaces cell) = is_unicode_alphanum true cell := by
  simp [is_unicode_alphanum, run_regex_strip]

theorem is_time_strip (cell : String) :
    is_time true (stripSpaces cell) = is_time true cell := by
  simp [is_time, run_regex_strip]

theorem is_date_strip (cell : String) :
    is_date true (stripSpaces cell) = is_date true cell := by
  simp [is_date, is_number_strip, run_regex_strip]

theorem is_percentage_strip (cell : String) :
    is_percentage true (stripSpaces cell) = is_percentage true cell := by
  simp [is_percentage, stripSpaces_idem]

theorem is_currency_strip (cell : String) :
    is_currency true (stripSpaces cell) = is_currency true cell := by
  simp [is_currency, stripSpaces_idem]

theorem is_nan_strip (cell : String) :
    is_nan true (stripSpaces cell) = is_nan true cell := by
  simp [is_nan, stripSpaces_idem]

/-! ## Splitting lemmas

Python's `split` on a separator that occurs in the string returns at
least two pieces, so the `parts[1]`/`subparts[1]` indexing inside
`is_datetime` is always in bounds. -/

theorem splitCharList_ne_nil (sep : Char) (l : List Char) :
    splitCharList sep l ≠ [] := by
  induction l with
  | nil => simp [splitCharList]
  | cons c t ih =>
    simp only [splitCharList]
    by_cases hc : (c == sep) = true
    · simp [hc]
    · simp only [hc, if_false]
      cases hr : splitCharList sep t with
      | nil => simp
      | cons hd tl => simp

theorem length_splitCharList_ge_two (sep : Char) (l : List Char)
    (h : l.any (fun x => x == sep) = true) :
    2 ≤ (splitCharList sep l).length := by
  induction l with
  | nil => simp at h
  | cons c t ih =>
    simp only [List.any_cons, Bool.or_eq_true] at h
    simp only [splitCharList]
    by_cases hc : (c == sep) = true
    · simp only [hc, if_true, List.length_cons]
      have hne := splitCharList_ne_nil sep t
      have hlen : 1 ≤ (splitCharList sep t).length :=
        Nat.one_le_iff_ne_zero.mpr (by simpa [List.length_eq_zero] using hne)
      omega
    · rcases h with h | h
      · exact absurd h hc
      · have h2 := ih h
        simp only [hc, if_false]
        cases hr : splitCharList sep t with
        | nil => exact absurd hr (splitCharList_ne_nil sep t)
        | cons hd tl =>
          rw [hr] at h2
          simpa using h2

theorem pySplit_length_ge_two (sep : Char) (s : String)
    (h : pyContains s sep = true) : 2 ≤ (pySplit sep s).length := by
  unfold pySplit
  rw [List.length_map]
  exact length_splitCharList_ge_two sep s.data h

theorem get01_of_two_le (l : List String) (h : 2 ≤ l.length) :
    l[0]? = some (l.getD 0 "") ∧ l[1]? = some (l.getD 1 "") := by
  match l with
  | [] => simp at h
  | [a] => simp at h
  | a :: b :: t => simp [List.getD]

/-! ## Safety of `is_datetime` and the dispatch cascade -/

theorem is_datetimeE_eq (strip : Bool) (cell : String) :
    is_datetimeE strip cell = some (is_datetime strip cell) := by
  unfold is_datetimeE is_datetime
  by_cases h1 : pyContains cell ' ' = true
  · rw [if_pos h1, if_pos h1]
    by_cases h2 : (pySplit ' ' cell).length > 2
    · rw [if_pos h2, if_pos h2]
    · rw [if_neg h2, if_neg h2]
      obtain ⟨ha, hb⟩ := get01_of_two_le _ (pySplit_length_ge_two ' ' cell h1)
      rw [ha, hb]
      rfl
  · rw [if_neg h1, if_neg h1]
    by_cases h3 : pyContains cell 'T' = true
    · rw [if_pos h3, if_pos h3]
      by_cases h4 : (pySplit 'T' cell).length > 2
      · rw [if_pos h4, if_pos h4]
      · rw [if_neg h4, if_neg h4]
        obtain ⟨ha, hb⟩ := get01_of_two_le _ (pySplit_length_ge_two 'T' cell h3)
        rw [ha, hb]
        simp only [Option.bind_eq_bind, Option.some_bind]
        by_cases h5 :
            (!is_date strip ((pySplit 'T' cell).getD 0 "")) = true
        · rw [if_pos h5, if_pos h5]
        · rw [if_neg h5, if_neg h5]
          by_cases h6 : is_time strip ((pySplit 'T' cell).getD 1 "") = true
          · rw [if_pos h6, if_pos h6]
          · rw [if_neg h6, if_neg h6]
            by_cases h7 : pyContains ((pySplit 'T' cell).getD 1 "") '+' = true
            · rw [if_pos h7, if_pos h7]
              obtain ⟨hc, hd⟩ :=
                get01_of_two_le _ (pySplit_length_ge_two '+' _ h7)
              rw [hc, hd]
              simp only [Option.bind_eq_bind, Option.some_bind]
              split_ifs <;> rfl
            · rw [if_neg h7, if_neg h7]
              by_cases h8 :
                  pyContains ((pySplit 'T' cell).getD 1 "") '-' = true
              · rw [if_pos h8, if_pos h8]
                obtain ⟨hc, hd⟩ :=
                  get01_of_two_le _ (pySplit_length_ge_two '-' _ h8)
                rw [hc, hd]
                simp only [Option.bind_eq_bind, Option.some_bind]
                split_ifs <;> rfl
              · rw [if_neg h8, if_neg h8]
    · rw [if_neg h3, if_neg h3]

theorem detect_typeE_eq (strip : Bool) (cell : String) :
    detect_typeE strip cell = some (detect_type strip cell) := by
  have hdt := is_datetimeE_eq strip cell
  cases h1 : is_empty strip cell with
  | true =>
    simp [detect_typeE, detect_type, type_testsE, type_tests, firstMatchE,
      firstMatch, h1]
  | false =>
  cases h2 : is_url_or_email strip cell with
  | true =>
    simp [detect_typeE, detect_type, type_testsE, type_tests, firstMatchE,
      firstMatch, h1, h2]
  | false =>
  cases h3 : is_number strip cell with
  | true =>
    simp [detect_typeE, detect_type, type_testsE, type_tests, firstMatchE,
      firstMatch, h1, h2, h3]
  | false =>
  cases h4 : is_time strip cell with
  | true =>
    simp [detect_typeE, detect_type, type_testsE, type_tests, firstMatchE,
      firstMatch, h1, h2, h3, h4]
  | false =>
  cases h5 : is_percentage strip cell with
  | true =>
    simp [detect_typeE, detect_type, type_testsE, type_tests, firstMatchE,
      firstMatch, h1, h2, h3, h4, h5]
  | false =>
  cases h6 : is_currency strip cell with
  | true =>
    simp [detect_typeE, detect_type, type_testsE, type_tests, firstMatchE,
      firstMatch, h1, h2, h3, h4, h5, h6]
  | false =>
  cases h7 : is_unicode_alphanum strip cell with
  | true =>
    simp [detect_typeE, detect_type, type_testsE, type_tests, firstMatchE,
      firstMatch, h1, h2, h3, h4, h5, h6, h7]
  | false =>
  cases h8 : is_nan strip cell with
  | true =>
    simp [detect_typeE, detect_type, type_testsE, type_tests, firstMatchE,
      firstMatch, h1, h2, h3, h4, h5, h6, h7, h8]
  | false =>
  cases h9 : is_date strip cell with
  | true =>
    simp [detect_typeE, detect_type, type_testsE, type_tests, firstMatchE,
      firstMatch, h1, h2, h3, h4, h5, h6, h7, h8, h9]
  | false =>
  cases h10 : is_datetime strip cell with
  | true =>
    simp [detect_typeE, detect_type, type_testsE, type_tests, firstMatchE,
      firstMatch, h1, h2, h3, h4, h5, h6, h7, h8, h9, h10, hdt]
  | false =>
    simp [detect_typeE, detect_type, type_testsE, type_tests, firstMatchE,
      firstMatch, h1, h2, h3, h4, h5, h6, h7, h8, h9, h10, hdt]

/-- The dispatch unfolded into its priority cascade (shared by the claim
theorems below). -/
theorem detect_type_cascade (strip : Bool) (c : String) :
    detect_type strip c =
      if is_empty strip c then some "empty"
      else if is_url_or_email strip c then some "url_or_email"
      else if is_number strip c then some "number"
      else if is_time strip c then some "time"
      else if is_percentage strip c then some "percentage"
      else if is_currency strip c then some "currency"
      else if is_unicode_alphanum strip c then some "unicode_alphanum"
      else if is_nan strip c then some "nan"
      else if is_date strip c then some "date"
      else if is_datetime strip c then some "datetime"
      else none := rfl

/-! ## The claims -/

set_option maxRecDepth 10000

/-- C1: for every cell string, `detect_type` evaluates the type
predicates in the exact fixed priority empty → url-or-email → number →
time → percentage → currency → alphanumeric → not-a-number → date →
date-time and returns the label of the first predicate that is true for
the cell, or `none` (the "unknown" label) when none is true. -/
theorem claim_C1 (strip : Bool) (c : String) :
    detect_type strip c =
      if is_empty strip c then some "empty"
      else if is_url_or_email strip c then some "url_or_email"
      else if is_number strip c then some "number"
      else if is_time strip c then some "time"
      else if is_percentage strip c then some "percentage"
      else if is_currency strip c then some "currency"
      else if is_unicode_alphanum strip c then some "unicode_alphanum"
      else if is_nan strip c then some "nan"
      else if is_date strip c then some "date"
      else if is_datetime strip c then some "datetime"
      else none :=
  detect_type_cascade strip c

set_option maxHeartbeats 1000000 in
/-- C2: for every cell string, `detect_type` returns `none` ("unknown")
iff `is_known_type` is false, and whenever it returns a label, that
label's own predicate is true for the cell. -/
theorem claim_C2 (strip : Bool) (c : String) :
    (detect_type strip c = none ↔ is_known_type strip c = false) ∧
    (∀ l, detect_type strip c = some l → labelPred l strip c = true) := by
  constructor
  · cases h : detect_type strip c <;> simp [is_known_type, h]
  · intro l hl
    rw [detect_type_cascade] at hl
    split_ifs at hl with h1 h2 h3 h4 h5 h6 h7 h8 h9 h10
    · injection hl with h; subst h; exact h1
    · injection hl with h; subst h; exact h2
    · injection hl with h; subst h; exact h3
    · injection hl with h; subst h; exact h4
    · injection hl with h; subst h; exact h5
    · injection hl with h; subst h; exact h6
    · injection hl with h; subst h; exact h7
    · injection hl with h; subst h; exact h8
    · injection hl with h; subst h; exact h9
    · injection hl with h; subst h; exact h10

/-- C2 witness: at the empty cell the dispatch returns "empty" and the
"empty" predicate holds. -/
theorem claim_C2_witness :
    detect_type true "" = some "empty" ∧ labelPred "empty" true "" = true :=
  ⟨by decide, (claim_C2 true "").2 "empty" (by decide)⟩

/-- C3: numeric cells are never dates (`is_date` self-excludes
`is_number`); for non-numeric cells `is_date` holds iff some pattern of
the generated Date Format Space fully matches; and "19990101" is
classified as "number", never "date". -/
theorem claim_C3 :
    (∀ strip c, is_number strip c = true → is_date strip c = false) ∧
    (∀ strip c, is_number strip c = false →
      (is_date strip c = true ↔ ∃ p ∈ datePats, run_regex strip c p = true)) ∧
    detect_type true "19990101" = some "number" := by
  refine ⟨?_, ?_, by decide⟩
  · intro strip c h
    simp [is_date, h]
  · intro strip c h
    simp [is_date, h, List.any_eq_true]

/-- C3 witness: "19990101" is a number and hence not a date, and the
pattern-space characterisation instantiates at a non-numeric cell. -/
theorem claim_C3_witness :
    (is_number true "19990101" = true ∧ is_date true "19990101" = false) ∧
    (is_number true "," = false ∧
      (is_date true "," = true ↔ ∃ p ∈ datePats, run_regex true "," p = true)) :=
  ⟨⟨by decide, claim_C3.1 true "19990101" (by decide)⟩,
   ⟨by decide, claim_C3.2.1 true "," (by decide)⟩⟩

/-- C5: every evaluation is total.  `is_datetime` with Python's partial
indexing made explicit (`is_datetimeE`) never hits an out-of-bounds
index — it always returns `some` of the total `is_datetime` — and
likewise the whole dispatch `detect_typeE` never raises and reports an
unmatched cell as `none` ("unknown"), the value `detect_type` computes. -/
theorem claim_C5 (strip : Bool) (c : String) :
    is_datetimeE strip c = some (is_datetime strip c) ∧
    detect_typeE strip c = some (detect_type strip c) :=
  ⟨is_datetimeE_eq strip c, detect_typeE_eq strip c⟩

/-- C10: the single-character cells "+", "-" and "." all satisfy
`is_number` (every component of the `number_1` pattern is independently
omittable), so `detect_type` labels each of them "number". -/
theorem claim_C10 :
    is_number true "+" = true ∧ is_number true "-" = true ∧
    is_number true "." = true ∧
    detect_type true "+" = some "number" ∧
    detect_type true "-" = some "number" ∧
    detect_type true "." = some "number" := by
  refine ⟨by decide, by decide, by decide, by decide, by decide, by decide⟩

/-- C7: a cell containing a space satisfies `is_datetime` iff it splits
into exactly two space-separated parts with the first a date and the
second a time; and the three reference date-time cells are accepted
(the third via the bare 4-digit offset check). -/
theorem claim_C7 :
    (∀ strip cell, pyContains cell ' ' = true →
      is_datetime strip cell =
        (((pySplit ' ' cell).length == 2) &&
          is_date strip ((pySplit ' ' cell).getD 0 "") &&
          is_time strip ((pySplit ' ' cell).getD 1 ""))) ∧
    is_datetime true "2023-01-01 12:30:00" = true ∧
    is_datetime true "2023-01-01T12:30:00+02:00" = true ∧
    is_datetime true "2023-01-01T12:30:00+0200" = true := by
  refine ⟨?_, by decide, by decide, by decide⟩
  intro strip cell h
  have hlen := pySplit_length_ge_two ' ' cell h
  simp only [is_datetime, h, if_true]
  by_cases h3 : (pySplit ' ' cell).length > 2
  · have hne : ((pySplit ' ' cell).length == 2) = false := by
      simp only [beq_eq_false_iff_ne, ne_eq]
      omega
    rw [if_pos h3, hne]
    simp
  · have he : ((pySplit ' ' cell).length == 2) = true := by
      simp only [beq_iff_eq]
      omega
    rw [if_neg h3, he]
    simp

/-- C7 witness: the space-branch characterisation instantiated at the
reference cell. -/
theorem claim_C7_witness :
    pyContains "2023-01-01 12:30:00" ' ' = true ∧
    is_datetime true "2023-01-01 12:30:00" =
      (((pySplit ' ' "2023-01-01 12:30:00").length == 2) &&
        is_date true ((pySplit ' ' "2023-01-01 12:30:00").getD 0 "") &&
        is_time true ((pySplit ' ' "2023-01-01 12:30:00").getD 1 "")) :=
  ⟨by decide, claim_C7.1 true "2023-01-01 12:30:00" (by decide)⟩

/-- C6 counterexample: `is_datetime` is **not** invariant under
stripping: it tests for the space and splits on the raw cell, so a
leading space makes the date part of the split empty. -/
theorem claim_C6_counterexample :
    stripSpaces " 2023-01-01T12:30:00" = "2023-01-01T12:30:00" ∧
    is_datetime true " 2023-01-01T12:30:00" = false ∧
    is_datetime true "2023-01-01T12:30:00" = true :=
  ⟨by decide, by decide, by decide⟩

/-- C6 amended: with the whitespace-strip flag set, every type predicate
**except `is_datetime`** is invariant under removing leading and trailing
ASCII spaces from the cell (`is_datetime` inspects the raw cell before
any stripping and is excluded; the counterexample above shows it must
be). -/
theorem claim_C6_amended (c : String) :
    is_empty true c = is_empty true (stripSpaces c) ∧
    is_url_or_email true c = is_url_or_email true (stripSpaces c) ∧
    is_number true c = is_number true (stripSpaces c) ∧
    is_time true c = is_time true (stripSpaces c) ∧
    is_percentage true c = is_percentage true (stripSpaces c) ∧
    is_currency true c = is_currency true (stripSpaces c) ∧
    is_unicode_alphanum true c = is_unicode_alphanum true (stripSpaces c) ∧
    is_nan true c = is_nan true (stripSpaces c) ∧
    is_date true c = is_date true (stripSpaces c) :=
  ⟨(is_empty_strip c).symm, (is_url_or_email_strip c).symm,
   (is_number_strip c).symm, (is_time_strip c).symm,
   (is_percentage_strip c).symm, (is_currency_strip c).symm,
   (is_unicode_alphanum_strip c).symm, (is_nan_strip c).symm,
   (is_date_strip c).symm⟩

/-! ## Leading zeros in `number_1` (for C9) -/

theorem deriv_numberOneGroup_digit {d : Char} (hd : isUniNum d = true) :
    RE.deriv numberOneGroup d = .emp := by
  have hb : 48 ≤ d.toNat ∧ d.toNat ≤ 57 := by
    simpa [isUniNum, decide_eq_true_eq] using hd
  have h46 : ¬ d.toNat = 46 := by omega
  have h44 : ¬ d.toNat = 44 := by omega
  have heE : ¬ (d.toNat = 101 ∨ d.toNat = 69) := by omega
  simp [numberOneGroup, numberOneYesDot, numberOneNoDot, numberOneYesComma,
    numberOneNoComma, expTail, chOf, RE.opt, RE.plus, RE.deriv, RE.nullable,
    RE.scat, RE.salt, h46, h44, heE]

/-- After an optional sign and the integer-part digit `0`, the rest of
`number_1` (its branch group) can begin only with `.`, `,`, `e` or `E`,
never with another digit. -/
theorem matchList_numberOneGroup_digit {d : Char} (hd : isUniNum d = true)
    (l : List Char) : RE.matchList numberOneGroup (d :: l) = false := by
  show RE.matchList (RE.deriv numberOneGroup d) l = false
  rw [deriv_numberOneGroup_digit hd]
  exact RE.matchList_emp

/-- C9: the reference acceptances and rejections of `is_number`, and the
no-leading-zero property of the plain/scientific form `number_1`: after
an optional sign, an integer part starting with `0` followed by another
digit is rejected whatever follows ("01" is the claim's instance; the
value "0" itself is accepted).  `run_number_1 false` is the `number_1`
pattern (lookahead and body) applied to the raw cell. -/
theorem claim_C9 :
    (is_number true "" = false ∧ is_number true "0" = true ∧
     is_number true "-12" = true ∧ is_number true "3.14" = true ∧
     is_number true "3,14" = true ∧ is_number true "1e10" = true ∧
     is_number true "1,234.56" = true ∧ is_number true "1.234,56" = true ∧
     is_number true "01" = false) ∧
    (∀ d : Char, isUniNum d = true → ∀ rest : List Char,
      run_number_1 false ⟨'0' :: d :: rest⟩ = false ∧
      run_number_1 false ⟨'+' :: '0' :: d :: rest⟩ = false ∧
      run_number_1 false ⟨'-' :: '0' :: d :: rest⟩ = false) := by
  constructor
  · exact ⟨by decide, by decide, by decide, by decide, by decide, by decide,
      by decide, by decide, by decide⟩
  · intro d hd rest
    refine ⟨?_, ?_, ?_⟩
    · have h0 : run_number_1 false ⟨'0' :: d :: rest⟩ =
          (numberOneLookahead ⟨'0' :: d :: rest⟩ &&
            RE.matchList numberOneGroup (d :: rest)) := rfl
      rw [h0, matchList_numberOneGroup_digit hd rest, Bool.and_false]
    · have h0 : run_number_1 false ⟨'+' :: '0' :: d :: rest⟩ =
          (numberOneLookahead ⟨'+' :: '0' :: d :: rest⟩ &&
            RE.matchList numberOneGroup (d :: rest)) := rfl
      rw [h0, matchList_numberOneGroup_digit hd rest, Bool.and_false]
    · have h0 : run_number_1 false ⟨'-' :: '0' :: d :: rest⟩ =
          (numberOneLookahead ⟨'-' :: '0' :: d :: rest⟩ &&
            RE.matchList numberOneGroup (d :: rest)) := rfl
      rw [h0, matchList_numberOneGroup_digit hd rest, Bool.and_false]

/-- C9 witness: the no-leading-zero part instantiated at "01", "015",
"+01" and "-01". -/
theorem claim_C9_witness :
    isUniNum '1' = true ∧
    (run_number_1 false ⟨'0' :: '1' :: ['5']⟩ = false ∧
     run_number_1 false ⟨'+' :: '0' :: '1' :: ['5']⟩ = false ∧
     run_number_1 false ⟨'-' :: '0' :: '1' :: ['5']⟩ = false) :=
  ⟨by decide, claim_C9.2 '1' (by decide) ['5']⟩

/-! ## Counting lemmas for the scorer (C4) -/

/-- All cells of the parsed rows. -/
def totalCells (rows : List (List String)) : Nat := rows.flatten.length

/-- The cells of the parsed rows with a known type. -/
def knownCells (rows : List (List String)) : Nat :=
  (rows.flatten.filter (fun c => is_known_type true c)).length

theorem foldl_cells_row (row : List String) (a b : Nat) :
    row.foldl (fun acc2 cell =>
        (acc2.1 + 1, acc2.2 + (if is_known_type true cell then 1 else 0)))
      (a, b) =
    (a + row.length, b + (row.filter (fun c => is_known_type true c)).length) := by
  induction row generalizing a b with
  | nil => simp
  | cons x t ih =>
    simp only [List.foldl_cons]
    rw [ih]
    by_cases hx : is_known_type true x = true <;>
      simp [hx, List.filter_cons, Prod.ext_iff] <;> omega

theorem foldl_cells_rows (rows : List (List String)) (a b : Nat) :
    rows.foldl (fun acc row =>
        row.foldl (fun acc2 cell =>
          (acc2.1 + 1, acc2.2 + (if is_known_type true cell then 1 else 0)))
          acc)
      (a, b) =
    (a + totalCells rows, b + knownCells rows) := by
  induction rows generalizing a b with
  | nil => simp [totalCells, knownCells]
  | cons r t ih =>
    simp only [List.foldl_cons]
    rw [foldl_cells_row, ih]
    simp [totalCells, knownCells, List.filter_append, Prod.ext_iff]
    omega

theorem type_score_eq (rows : List (List String)) (eps : ℚ) :
    type_score rows eps =
      if totalCells rows = 0 then eps
      else max eps ((knownCells rows : ℚ) / (totalCells rows : ℚ)) := by
  unfold type_score
  rw [foldl_cells_rows]
  simp

/-- C4 counterexample: the claim quantifies over every `eps > 0`, but at
`eps = 2 > 1` the score of a nonempty all-empty table is `2`: it is not
`1.0` and lies outside `[eps, 1.0]` (that interval is empty). -/
theorem claim_C4_counterexample :
    (0:ℚ) < 2 ∧ type_score [[""]] 2 = 2 ∧ ¬ type_score [[""]] 2 ≤ 1 := by
  refine ⟨by norm_num, ?_, ?_⟩ <;>
    · rw [type_score_eq]
      norm_num [totalCells, knownCells]
      try decide

/-- C4 amended: for `0 < eps ≤ 1`, `type_score` returns `eps` when the
parser yields no cells, otherwise `max eps (known/total)`; the result
lies in `[eps, 1]`; and a table with at least one cell whose cells are
all empty strings scores `1`. -/
theorem claim_C4_amended (rows : List (List String)) (eps : ℚ)
    (h1 : 0 < eps) (h2 : eps ≤ 1) :
    (totalCells rows = 0 → type_score rows eps = eps) ∧
    (totalCells rows ≠ 0 →
      type_score rows eps =
        max eps ((knownCells rows : ℚ) / (totalCells rows : ℚ))) ∧
    eps ≤ type_score rows eps ∧ type_score rows eps ≤ 1 ∧
    (totalCells rows ≠ 0 → (∀ row ∈ rows, ∀ c ∈ row, c = "") →
      type_score rows eps = 1) := by
  have hknown_le : knownCells rows ≤ totalCells rows :=
    List.length_filter_le _ _
  refine ⟨?_, ?_, ?_, ?_, ?_⟩
  · intro h; rw [type_score_eq, if_pos h]
  · intro h; rw [type_score_eq, if_neg h]
  · rw [type_score_eq]
    split_ifs with h
    · exact le_refl _
    · exact le_max_left _ _
  · rw [type_score_eq]
    split_ifs with h
    · exact h2
    · apply max_le h2
      apply div_le_one_of_le₀
      · exact_mod_cast hknown_le
      · positivity
  · intro h hall
    rw [type_score_eq, if_neg h]
    have hk : knownCells rows = totalCells rows := by
      unfold knownCells totalCells
      congr 1
      rw [List.filter_eq_self]
      intro c hc
      rw [List.mem_flatten] at hc
      obtain ⟨row, hrow, hcrow⟩ := hc
      have hce : c = "" := hall row hrow c hcrow
      subst hce
      decide
    rw [hk, div_self (by exact_mod_cast h)]
    exact max_eq_right h2

/-- C4 witness: the amended statement instantiated at a two-cell table
(one empty cell, one unknown cell) with `eps = 1/2`. -/
theorem claim_C4_witness :
    (0:ℚ) < 1/2 ∧ (1/2:ℚ) ≤ 1 ∧
    ((totalCells [["", "a"]] = 0 → type_score [["", "a"]] (1/2) = 1/2) ∧
     (totalCells [["", "a"]] ≠ 0 →
       type_score [["", "a"]] (1/2) =
         max (1/2) ((knownCells [["", "a"]] : ℚ) / (totalCells [["", "a"]] : ℚ))) ∧
     (1/2:ℚ) ≤ type_score [["", "a"]] (1/2) ∧
     type_score [["", "a"]] (1/2) ≤ 1 ∧
     (totalCells [["", "a"]] ≠ 0 →
       (∀ row ∈ [["", "a"]], ∀ c ∈ row, c = "") →
       type_score [["", "a"]] (1/2) = 1)) :=
  ⟨by norm_num, by norm_num,
   claim_C4_amended [["", "a"]] (1/2) (by norm_num) (by norm_num)⟩

/-! ## The bare timezone-offset patterns (C8) -/

/-- The 4-digit hour-then-minute language, by value: four ASCII digits
coding an hour `00`-`23` followed by a minute `00`-`59`, with no
separator. -/
def bareOffsetSpec (s : String) : Prop :=
  ∃ h m : Nat, h ≤ 23 ∧ m ≤ 59 ∧
    s.data.map Char.toNat = [48 + h / 10, 48 + h % 10, 48 + m / 10, 48 + m % 10]

theorem matches_chOf_inv {c : Char} {l : List Char}
    (h : RE.Matches (chOf c) l) : ∃ x, l = [x] ∧ x.toNat = c.toNat := by
  obtain ⟨x, hx, hp⟩ := RE.matches_cls_inv h
  refine ⟨x, hx, ?_⟩
  simpa [chOf, decide_eq_true_eq] using hp

theorem matches_rng_inv {lo hi : Char} {l : List Char}
    (h : RE.Matches (rng lo hi) l) :
    ∃ x, l = [x] ∧ lo.toNat ≤ x.toNat ∧ x.toNat ≤ hi.toNat := by
  obtain ⟨x, hx, hp⟩ := RE.matches_cls_inv h
  refine ⟨x, hx, ?_⟩
  simpa [rng, decide_eq_true_eq] using hp

theorem matches_pair {p q : Char → Bool} {a b : Char} (hp : p a = true)
    (hq : q b = true) : RE.Matches (.cat (.cls p) (.cls q)) [a, b] := by
  have := RE.Matches.cat (RE.Matches.cls hp) (RE.Matches.cls hq)
  simpa using this

theorem matches_hour_inv {l : List Char} (h : RE.Matches hourTwoDigit l) :
    ∃ a b, l = [a, b] ∧ 48 ≤ b.toNat ∧
      ((a.toNat = 48 ∧ b.toNat ≤ 57) ∨ (a.toNat = 49 ∧ b.toNat ≤ 57) ∨
       (a.toNat = 50 ∧ b.toNat ≤ 51)) := by
  rcases RE.matches_alt_inv h with h | h
  · rcases RE.matches_alt_inv h with h | h
    · obtain ⟨l₁, l₂, heq, ha, hb⟩ := RE.matches_cat_inv h
      obtain ⟨a, rfl, ha2⟩ := matches_chOf_inv ha
      obtain ⟨b, rfl, hb1, hb2⟩ := matches_rng_inv hb
      exact ⟨a, b, heq, hb1, Or.inl ⟨ha2, hb2⟩⟩
    · obtain ⟨l₁, l₂, heq, ha, hb⟩ := RE.matches_cat_inv h
      obtain ⟨a, rfl, ha2⟩ := matches_chOf_inv ha
      obtain ⟨b, rfl, hb1, hb2⟩ := matches_rng_inv hb
      exact ⟨a, b, heq, hb1, Or.inr (Or.inl ⟨ha2, hb2⟩)⟩
  · obtain ⟨l₁, l₂, heq, ha, hb⟩ := RE.matches_cat_inv h
    obtain ⟨a, rfl, ha2⟩ := matches_chOf_inv ha
    obtain ⟨b, rfl, hb1, hb2⟩ := matches_rng_inv hb
    exact ⟨a, b, heq, hb1, Or.inr (Or.inr ⟨ha2, hb2⟩)⟩

theorem matches_minute_inv {l : List Char} (h : RE.Matches minutePair l) :
    ∃ c d, l = [c, d] ∧ 48 ≤ c.toNat ∧ c.toNat ≤ 53 ∧ 48 ≤ d.toNat ∧
      d.toNat ≤ 57 := by
  obtain ⟨l₁, l₂, heq, hc, hd⟩ := RE.matches_cat_inv h
  obtain ⟨c, rfl, hc1, hc2⟩ := matches_rng_inv hc
  obtain ⟨d, rfl, hd1, hd2⟩ := matches_rng_inv hd
  exact ⟨c, d, heq, hc1, hc2, hd1, hd2⟩

theorem matches_hour_of_le {a b : Char} {h : Nat} (hh : h ≤ 23)
    (ha : a.toNat = 48 + h / 10) (hb : b.toNat = 48 + h % 10) :
    RE.Matches hourTwoDigit [a, b] := by
  have hz : ('0' : Char).toNat = 48 := rfl
  have ho : ('1' : Char).toNat = 49 := rfl
  have ht : ('2' : Char).toNat = 50 := rfl
  have hn : ('9' : Char).toNat = 57 := rfl
  have h3 : ('3' : Char).toNat = 51 := rfl
  rcases (by omega : h / 10 = 0 ∨ h / 10 = 1 ∨ h / 10 = 2) with h0 | h0 | h0
  · apply RE.Matches.altL
    apply RE.Matches.altL
    apply matches_pair
    · simp only [decide_eq_true_eq, hz]; omega
    · simp only [Bool.and_eq_true, decide_eq_true_eq, hz, hn]
      omega
  · apply RE.Matches.altL
    apply RE.Matches.altR
    apply matches_pair
    · simp only [decide_eq_true_eq, ho]; omega
    · simp only [Bool.and_eq_true, decide_eq_true_eq, hz, hn]
      omega
  · apply RE.Matches.altR
    apply matches_pair
    · simp only [decide_eq_true_eq, ht]; omega
    · simp only [Bool.and_eq_true, decide_eq_true_eq, hz, h3]
      have : h % 10 ≤ 3 := by omega
      omega

theorem matches_minute_of_le {c d : Char} {m : Nat} (hm : m ≤ 59)
    (hc : c.toNat = 48 + m / 10) (hd : d.toNat = 48 + m % 10) :
    RE.Matches minutePair [c, d] := by
  have hz : ('0' : Char).toNat = 48 := rfl
  have h5 : ('5' : Char).toNat = 53 := rfl
  have hn : ('9' : Char).toNat = 57 := rfl
  apply matches_pair
  · simp only [Bool.and_eq_true, decide_eq_true_eq, hz, h5]
    have : m / 10 ≤ 5 := by omega
    omega
  · simp only [Bool.and_eq_true, decide_eq_true_eq, hz, hn]
    have : m % 10 ≤ 9 := by omega
    omega

/-- C8: the `time_HHMM` and `time_HH` pattern strings of `PATTERNS` are
character-for-character identical, so they accept exactly the same
strings; and that common language is precisely the separator-free
four-digit hour-then-minute form with hour 00-23 and minute 00-59. -/
theorem claim_C8 (s : String) :
    time_HHMM.fullmatch s = time_HH.fullmatch s ∧
    (time_HHMM.fullmatch s = true ↔ bareOffsetSpec s) := by
  refine ⟨rfl, ?_, ?_⟩
  · intro h
    have hm := RE.matchList_iff.mp h
    obtain ⟨l₁, l₂, heq, hh, hmm⟩ := RE.matches_cat_inv hm
    obtain ⟨a, b, rfl, hb48, hcase⟩ := matches_hour_inv hh
    obtain ⟨c, d, rfl, hc1, hc2, hd1, hd2⟩ := matches_minute_inv hmm
    refine ⟨10 * (a.toNat - 48) + (b.toNat - 48),
            10 * (c.toNat - 48) + (d.toNat - 48), ?_, ?_, ?_⟩
    · rcases hcase with ⟨ha, hb⟩ | ⟨ha, hb⟩ | ⟨ha, hb⟩ <;> omega
    · omega
    · have hdata : s.data = [a, b, c, d] := by simpa using heq
      rw [hdata]
      simp only [List.map_cons, List.map_nil, List.cons.injEq, and_true]
      rcases hcase with ⟨ha, hb⟩ | ⟨ha, hb⟩ | ⟨ha, hb⟩ <;>
        refine ⟨by omega, by omega, by omega, by omega⟩
  · rintro ⟨h, m, hh, hm, hmap⟩
    have hlen : s.data.length = 4 := by
      have := congrArg List.length hmap
      simpa using this
    obtain ⟨a, b, c, d, hdata⟩ : ∃ a b c d, s.data = [a, b, c, d] := by
      match hd : s.data, hlen with
      | [a, b, c, d], _ => exact ⟨a, b, c, d, rfl⟩
    rw [hdata] at hmap
    simp only [List.map_cons, List.map_nil, List.cons.injEq, and_true] at hmap
    obtain ⟨ha, hb, hc, hdd⟩ := hmap
    apply RE.matchList_iff.mpr
    show RE.Matches time_HHMM s.data
    rw [hdata]
    have := RE.Matches.cat (matches_hour_of_le hh ha hb)
      (matches_minute_of_le hm hc hdd)
    simpa using this
